import Mathlib

/-!
Shallow embedding of the interface-lifecycle and address-allocation core of
`netmiko_project.py` (classes `Session`, `Interface`, `Physical`, `Vlan`,
`DHCP`).  IPv4 addresses are modelled as natural numbers below `2 ^ 32`;
the TinyDB address ledger is a list of the stored `ip_address` strings, in
insertion order; device interaction is modelled by explicit inputs (the
text a show command returned) and by an event trace of the ledger edits and
configuration commands a workflow issues.  Fallible Python code (uncaught
exceptions) is modelled with `Except`/`Option`.
-/

namespace NetmikoProject

/-- Python's substring test `needle in hay` on character lists: true iff
`needle` occurs contiguously in `hay`. -/
def subListOf (needle : List Char) : List Char → Bool
  | [] => needle.isEmpty
  | c :: cs => needle.isPrefixOf (c :: cs) || subListOf needle cs

/-- Python's `needle in hay` for strings. -/
def strIn (needle hay : String) : Bool := subListOf needle.data hay.data

/-- Helper for `pyFindStr`: index (counting from `i`) of the first occurrence
of `needle`, or `-1`. -/
def pyFindStrAux (needle : List Char) : List Char → Int → Int
  | [], i => if needle.isEmpty then i else -1
  | c :: cs, i => if needle.isPrefixOf (c :: cs) then i else pyFindStrAux needle cs (i + 1)

/-- Python's `s.find(needle)`: index of first occurrence, `-1` when absent. -/
def pyFindStr (s needle : String) : Int := pyFindStrAux needle.data s.data 0

/-- Python's slice `s[:stop]` (a negative `stop` counts from the end and is
clamped at zero). -/
def pySliceTo (s : String) (stop : Int) : String :=
  let n : Int := s.data.length
  let stopN : Nat := if stop < 0 then (n + stop).toNat else stop.toNat
  String.mk (s.data.take stopN)

/-- Python's slice `s[start:]` (a negative `start` counts from the end and is
clamped at zero). -/
def pySliceFrom (s : String) (start : Int) : String :=
  let n : Int := s.data.length
  let startN : Nat := if start < 0 then (n + start).toNat else start.toNat
  String.mk (s.data.drop startN)

/-- Helper for `splitOnChar`: returns the chunk currently being built and the
list of later chunks. -/
def splitOnCharAux (c : Char) : List Char → List Char × List (List Char)
  | [] => ([], [])
  | x :: xs =>
    let r := splitOnCharAux c xs
    if x = c then ([], r.1 :: r.2) else (x :: r.1, r.2)

/-- Python's `s.split(c)` for a one-character separator (also the behaviour of
`str.split` used inside `ipaddress` for `"."` and `"/"`). -/
def splitOnChar (c : Char) (cs : List Char) : List (List Char) :=
  (splitOnCharAux c cs).1 :: (splitOnCharAux c cs).2

/-- Numeric value of a list of decimal digit characters. -/
def digitsToNat (cs : List Char) : Nat :=
  cs.foldl (fun a c => a * 10 + (c.toNat - '0'.toNat)) 0

/-- One dotted-quad octet, as `ipaddress` parses it: nonempty, all digits, at
most three characters, no leading zero, value at most 255. -/
def parseOctetL (cs : List Char) : Option Nat :=
  if cs.length = 0 then none
  else if ¬ cs.all Char.isDigit then none
  else if 3 < cs.length then none
  else if 1 < cs.length ∧ cs.head? = some '0' then none
  else if 255 < digitsToNat cs then none
  else some (digitsToNat cs)

/-- `ipaddress.IPv4Address(s)` on a character list: four octets joined by
dots, yielding the 32-bit numeral. -/
def parseIPv4L (cs : List Char) : Option Nat :=
  match splitOnChar '.' cs with
  | [a, b, c, d] =>
    match parseOctetL a, parseOctetL b, parseOctetL c, parseOctetL d with
    | some x, some y, some z, some w => some (((x * 256 + y) * 256 + z) * 256 + w)
    | _, _, _, _ => none
  | _ => none

/-- `ipaddress.IPv4Address` on a string. -/
def parseIPv4 (s : String) : Option Nat := parseIPv4L s.data

/-- A numeric prefix length: nonempty digit string with value at most 32
(the dotted-netmask spelling accepted by `ipaddress` is not used by this
program's data and is not modelled). -/
def parsePlenL (cs : List Char) : Option Nat :=
  if cs.length = 0 then none
  else if ¬ cs.all Char.isDigit then none
  else if digitsToNat cs ≤ 32 then some (digitsToNat cs) else none

/-- `ipaddress.IPv4Network(s)` (strict, as the source calls it): network
address and prefix length; fails when more than one `/` appears, when the
address or prefix is malformed, or when host bits are set.  A bare address
is a `/32` network. -/
def parseNetwork (s : String) : Option (Nat × Nat) :=
  match splitOnChar '/' s.data with
  | [a] => (parseIPv4L a).map (fun addr => (addr, 32))
  | [a, p] =>
    match parseIPv4L a, parsePlenL p with
    | some addr, some pl =>
      if addr % 2 ^ (32 - pl) = 0 then some (addr, pl) else none
    | _, _ => none
  | _ => none

/-- Broadcast address of a network `(address, prefix length)`. -/
def bcastOf (n : Nat × Nat) : Nat := n.1 + (2 ^ (32 - n.2) - 1)

/-- First address yielded by `IPv4Network.hosts()`: the network address for
`/31` and `/32`, otherwise the address after it. -/
def hostLo (n : Nat × Nat) : Nat := if 31 ≤ n.2 then n.1 else n.1 + 1

/-- Last address yielded by `IPv4Network.hosts()`: the single address for
`/32`, the broadcast for `/31`, otherwise the address before broadcast. -/
def hostHi (n : Nat × Nat) : Nat :=
  if n.2 = 32 then n.1 else if n.2 = 31 then bcastOf n else bcastOf n - 1

/-- Python's `address in network`: interval membership between the network
and broadcast addresses. -/
def inNetB (a : Nat) (n : Nat × Nat) : Bool :=
  decide (n.1 ≤ a ∧ a ≤ bcastOf n)

/-- The body of `check_ip_format`'s inner loop `for host in net.hosts():
if ipv4_address in (host, net.broadcast_address)`: true iff some iteration
matches (`hosts()` is never empty for an IPv4 network). -/
def hostsHitB (a : Nat) (n : Nat × Nat) : Bool :=
  decide (hostLo n ≤ a ∧ a ≤ hostHi n) || decide (a = bcastOf n)

/-- Whether a ledger record's network contains address `a` (false when the
record does not parse). -/
def containsB (a : Nat) (e : String) : Bool :=
  match parseNetwork e with
  | some n => inNetB a n
  | none => false

/-- The `for item in DB_FILE` loop of `Interface.check_ip_format`: walks the
ledger records in order; a record that fails to parse raises `ValueError`,
which the surrounding handler turns into the overall result `False`. -/
def scanIpCheck (a : Nat) : List String → Bool
  | [] => true
  | item :: rest =>
    match parseNetwork item with
    | none => false
    | some n =>
      if inNetB a n then false
      else if hostsHitB a n then false
      else scanIpCheck a rest

/-- The parsing step of `Interface.check_ip_format`:
`ip_to_check[:ip_to_check.find("/")]`. -/
def formattedPart (ip_to_check : String) : String :=
  pySliceTo ip_to_check (pyFindStr ip_to_check "/")

/-- `Interface.check_ip_format` (the ledger's `is_available`): slices the
candidate at the first `/`, parses it as an IPv4 address, and scans the
ledger; any `ValueError`/`IndexError` yields `False`. -/
def check_ip_format (db : List String) (ip_to_check : String) : Bool :=
  match parseIPv4 (formattedPart ip_to_check) with
  | none => false
  | some a => scanIpCheck a db

/-- The removal loop of `Interface.edit_db`: finds the first record whose
network contains `a`; a record that fails to parse raises an uncaught
`ValueError` (modelled as `Except.error`). -/
def removeScan (a : Nat) : List String → Except Unit (Option String)
  | [] => Except.ok none
  | item :: rest =>
    match parseNetwork item with
    | none => Except.error ()
    | some n => if inNetB a n then Except.ok (some item) else removeScan a rest

/-- `Interface.edit_db` (the ledger's `reserve`/`release`): with
`add_to_db = true` it appends the record; otherwise it parses the address
(uncaught `ValueError` on failure), finds the first record whose network
contains it, and removes every record equal to that one
(`DB_FILE.remove(where('ip_address') == item['ip_address'])`). -/
def edit_db (ip_address : String) (add_to_db : Bool) (db : List String) :
    Except Unit (List String) :=
  if add_to_db then Except.ok (db ++ [ip_address])
  else
    match parseIPv4 ip_address with
    | none => Except.error ()
    | some a =>
      match removeScan a db with
      | Except.error _ => Except.error ()
      | Except.ok none => Except.ok db
      | Except.ok (some item) => Except.ok (db.filter (· ≠ item))

/-- Dotted-quad rendering of a 32-bit address (Python's `str(IPv4Address)`). -/
def ipToString (a : Nat) : String :=
  toString (a / 2 ^ 24 % 256) ++ "." ++ toString (a / 2 ^ 16 % 256) ++ "." ++
    toString (a / 2 ^ 8 % 256) ++ "." ++ toString (a % 256)

/-- `Interface.get_next_ip_address`: first element of `hosts()` of the parsed
network, or `None` on `ValueError`. -/
def get_next_ip_address (network_address : String) : Option String :=
  match parseNetwork network_address with
  | none => none
  | some n => some (ipToString (if 31 ≤ n.2 then n.1 else n.1 + 1))

/-- Packed 32-bit address from four octets. -/
def ipNat (a b c d : Nat) : Nat := ((a * 256 + b) * 256 + c) * 256 + d

/-- Python's `str.capitalize()` restricted to ASCII: first character
uppercased, every later character lowercased. -/
def pyCapitalize (s : String) : String :=
  match s.data with
  | [] => ""
  | c :: rest => String.mk (c.toUpper :: rest.map Char.toLower)

/-- The normalisation `Interface.check_name` applies to its candidate:
`name_to_check.replace(" ", "")` (every space removed) then `.capitalize()`. -/
def normalize_name (s : String) : String :=
  pyCapitalize (String.mk (s.data.filter (· ≠ ' ')))

/-- The comparison loop of `Interface.check_name`: `False` on the first
existing name equal to the normalised candidate. -/
def checkNameLoop (c : String) : List String → Bool
  | [] => true
  | n :: rest => if n = c then false else checkNameLoop c rest

/-- `Interface.check_name` (`name_is_free`), as a function of the names the
device reported for the family. -/
def check_name (names_of_interfaces : List String) (name_to_check : String) : Bool :=
  checkNameLoop (normalize_name name_to_check) names_of_interfaces

/-- Modelled from the spec's words, for comparison only (claim C8 describes
the normalisation as "trim whitespace, canonical casing"): strip spaces from
both ends, leave interior characters, then apply the same canonical casing. -/
def claimed_name_normalize (s : String) : String :=
  pyCapitalize (String.mk (((s.data.dropWhile (· = ' ')).reverse.dropWhile (· = ' ')).reverse))

/-- `Interface.get_all_interfaces_of_type`, as a function of the interface
names the device reported (in device order).  The `Physical` branch iterates
the prefix list `["Ethernet", "Serial", "BRI"]` in an outer loop, appending
matching dot-free names; `Vlan` keeps names containing a dot; any other
family keeps names containing the family tag as a substring. -/
def get_all_interfaces_of_type (interface_type : String) (all_interfaces : List String) :
    List String :=
  if interface_type = "Physical" then
    (["Ethernet", "Serial", "BRI"]).foldl
      (fun acc p => acc ++ all_interfaces.filter (fun n => strIn p n && !(strIn "." n))) []
  else if interface_type = "Vlan" then
    all_interfaces.filter (fun n => strIn "." n)
  else
    all_interfaces.filter (fun n => strIn interface_type n)

/-- Length of the leading run of decimal digits. -/
def digitRunLen : List Char → Nat
  | [] => 0
  | c :: cs => if c.isDigit then digitRunLen cs + 1 else 0

/-- Match `[0-9]{1,3}\.` at the head of the list (greedy with backtracking,
which for this pattern succeeds exactly when the full leading digit run has
length 1 to 3 and is followed by a dot); returns the consumed length. -/
def octetDot (cs : List Char) : Option Nat :=
  let r := digitRunLen cs
  if 1 ≤ r ∧ r ≤ 3 then
    match cs.drop r with
    | '.' :: _ => some (r + 1)
    | _ => none
  else none

/-- Match the whole pattern
`[0-9]{1,3}\.[0-9]{1,3}\.[0-9]{1,3}\.[0-9]{1,3}` at the head of the list;
the final group takes up to three digits greedily.  Returns the consumed
length. -/
def matchIPLen (cs : List Char) : Option Nat :=
  match octetDot cs with
  | none => none
  | some k1 =>
    match octetDot (cs.drop k1) with
    | none => none
    | some k2 =>
      match octetDot (cs.drop (k1 + k2)) with
      | none => none
      | some k3 =>
        let r := digitRunLen (cs.drop (k1 + k2 + k3))
        if r = 0 then none else some (k1 + k2 + k3 + min r 3)

/-- Fuelled scan for `re.findall`: leftmost non-overlapping matches, resuming
after each match.  The fuel (initial list length) is never exhausted because
every step consumes at least one character. -/
def findIPsAux : Nat → List Char → List String
  | 0, _ => []
  | _ + 1, [] => []
  | fuel + 1, c :: cs =>
    match matchIPLen (c :: cs) with
    | some k => String.mk ((c :: cs).take k) :: findIPsAux fuel ((c :: cs).drop k)
    | none => findIPsAux fuel cs

/-- `Interface.get_all_ip_addresses`:
`re.findall(r"[0-9]{1,3}\.[0-9]{1,3}\.[0-9]{1,3}\.[0-9]{1,3}", s)`. -/
def get_all_ip_addresses (string_of_ip_addresses : String) : List String :=
  findIPsAux string_of_ip_addresses.data.length string_of_ip_addresses.data

/-- One observable side effect of a workflow: a ledger release
(`edit_db(ip, add_to_db=False)`) or a batch of configuration commands
(`send_config_commands`; a bare string argument is a one-command batch). -/
inductive LedgerEvent where
  | release (ip : String)
  | config (cmds : List String)
deriving DecidableEq, Repr

/-- The release loop of `DHCP.delete_dhcp`:
`for _ in range(n): edit_db(ips[0], False); del ips[0:3]`. -/
def dhcpReleaseLoop : Nat → List String → List LedgerEvent
  | 0, _ => []
  | k + 1, ips => LedgerEvent.release (ips.headD "") :: dhcpReleaseLoop k (ips.drop 3)

/-- `DHCP.delete_dhcp`, as a function of the chosen pool name (for example
`"Pool 5"`) and the text `show ip dhcp Pool 5` returned: releases the first
IP of each group of three found in the text, then sends the pool negation. -/
def delete_dhcp (pool_to_remove : String) (pool_details : String) : List LedgerEvent :=
  let pool_ip_addresses := get_all_ip_addresses pool_details
  let number_of_sub_pools := pool_ip_addresses.length / 3
  dhcpReleaseLoop number_of_sub_pools pool_ip_addresses ++
    [LedgerEvent.config ["no ip dhcp " ++ pool_to_remove]]

/-- `Interface.delete`: when the configuration text does not contain
`"dhcp"`, extracts its first IP literal (uncaught `IndexError` when there is
none) and releases it; then sends `no ` followed by
`interface_details[:interface_details.find("\n")]`. -/
def delete (interface_details : String) : Except String (List LedgerEvent) :=
  let interface_to_delete :=
    pySliceTo interface_details (pyFindStr interface_details "\n")
  if !(strIn "dhcp" interface_details) then
    match get_all_ip_addresses interface_details with
    | [] => Except.error "IndexError"
    | ip_address_to_remove :: _ =>
      Except.ok [LedgerEvent.release ip_address_to_remove,
        LedgerEvent.config ["no " ++ interface_to_delete]]
  else
    Except.ok [LedgerEvent.config ["no " ++ interface_to_delete]]

/-- `Physical.delete_physical`, as a function of the chosen interface name
and the raw `show run interface <name>` output.  A `Serial` name gets the
explicit command list and releases the first IP literal after the
`ip address` marker (after sending the commands); every other name is passed
itself — not its configuration text — to `Interface.delete`. -/
def delete_physical (interface_to_delete : String) (raw_details : String) :
    Except String (List LedgerEvent) :=
  let interface_details :=
    pySliceFrom raw_details (pyFindStr raw_details "interface")
  if strIn "Serial" interface_to_delete then
    let commands := ["interface " ++ interface_to_delete, "no desc", "no ip address", "shutdown"]
    let tail :=
      pySliceFrom interface_details (pyFindStr interface_details "ip address")
    match get_all_ip_addresses tail with
    | [] => Except.error "IndexError"
    | ip_address_to_remove :: _ =>
      Except.ok [LedgerEvent.config commands, LedgerEvent.release ip_address_to_remove]
  else
    delete interface_to_delete

/-- Result of one `netmiko.ConnectHandler` attempt: success (carrying the
output the subsequent `show ver` probe returns), a transport timeout
(`NetmikoTimeoutException`), or an authentication failure
(`NetmikoAuthenticationException`). -/
inductive ConnRes where
  | ok (showVer : String)
  | timeout
  | authFail
deriving DecidableEq, Repr

/-- Session state observed through `make_connection`: the current
`device_type` in `session_details`, and the dialect used by each
`ConnectHandler` call so far, in order. -/
structure SessSt where
  dialect : String
  calls : List String
deriving DecidableEq, Repr

/-- One `ConnectHandler(**self.session_details)` call: logs the dialect it
was invoked with and reports the environment's outcome for this attempt. -/
def connectCall (env : Nat → ConnRes) (s : SessSt) : SessSt × ConnRes :=
  ({ s with calls := s.calls ++ [s.dialect] }, env s.calls.length)

/-- The `except NetmikoTimeoutException` handler of `Session.make_connection`:
retries once with the `cisco_iso_telnet` dialect; only an authentication
failure is caught there (returning `False`); a second timeout propagates
(modelled as `none`). -/
def telnetFallback (env : Nat → ConnRes) (s : SessSt) : Option Bool × SessSt :=
  let s := { s with dialect := "cisco_iso_telnet" }
  match connectCall env s with
  | (s2, ConnRes.ok _) => (some true, s2)
  | (s2, ConnRes.timeout) => (none, s2)
  | (s2, ConnRes.authFail) => (some false, s2)

/-- `Session.make_connection`: connect with the initial `cisco_ios` dialect
and probe with `show ver`; on a `Nexus` signature reconnect once as
`cisco_nxos`; on a timeout fall back once to `cisco_iso_telnet`; an
authentication failure returns `False`.  The result is Python's return value
(`none` for an uncaught exception) and the final session state. -/
def make_connection (env : Nat → ConnRes) : Option Bool × SessSt :=
  let s0 : SessSt := { dialect := "cisco_ios", calls := [] }
  match connectCall env s0 with
  | (s1, ConnRes.ok output) =>
    if strIn "Nexus" output then
      let s1 := { s1 with dialect := "cisco_nxos" }
      match connectCall env s1 with
      | (s2, ConnRes.ok _) => (some true, s2)
      | (s2, ConnRes.timeout) => telnetFallback env s2
      | (s2, ConnRes.authFail) => (some false, s2)
    else (some true, s1)
  | (s1, ConnRes.timeout) => telnetFallback env s1
  | (s1, ConnRes.authFail) => (some false, s1)

/-- The conflict condition claim C1 states for one reservation: the
candidate's host address equals the reservation's network or broadcast
address, falls inside its host range, or the candidate network itself is the
reservation. -/
def specConflict (candidate : String) (a : Nat) (n : Nat × Nat) : Prop :=
  a = n.1 ∨ a = bcastOf n ∨ (hostLo n ≤ a ∧ a ≤ hostHi n) ∨
    parseNetwork candidate = some n

theorem hostsHit_imp_inNet (a : Nat) (n : Nat × Nat) (h : hostsHitB a n = true) :
    inNetB a n = true := by
  obtain ⟨na, pl⟩ := n
  have hpow : 1 ≤ 2 ^ (32 - pl) := Nat.one_le_two_pow
  simp only [hostsHitB, hostLo, hostHi, bcastOf, Bool.or_eq_true, decide_eq_true_eq] at h
  simp only [inNetB, bcastOf, decide_eq_true_eq]
  generalize hP : 2 ^ (32 - pl) = P at *
  split_ifs at h <;> omega

theorem inNet_iff_conflict (a : Nat) (n : Nat × Nat) :
    inNetB a n = true ↔ a = n.1 ∨ a = bcastOf n ∨ (hostLo n ≤ a ∧ a ≤ hostHi n) := by
  obtain ⟨na, pl⟩ := n
  simp only [inNetB, bcastOf, hostLo, hostHi, decide_eq_true_eq]
  rcases Nat.lt_or_ge pl 31 with h30 | h31
  · have c1 : ¬ 31 ≤ pl := by omega
    have c2 : pl ≠ 32 := by omega
    have c3 : pl ≠ 31 := by omega
    have h4 : 4 ≤ 2 ^ (32 - pl) := by
      calc (4 : Nat) = 2 ^ 2 := by norm_num
        _ ≤ 2 ^ (32 - pl) := Nat.pow_le_pow_right (by norm_num) (by omega)
    simp only [if_neg c1, if_neg c2, if_neg c3]
    generalize hP : 2 ^ (32 - pl) = P at *
    omega
  · have hpow : 1 ≤ 2 ^ (32 - pl) := Nat.one_le_two_pow
    have hle : 2 ^ (32 - pl) ≤ 2 := by
      calc 2 ^ (32 - pl) ≤ 2 ^ 1 := Nat.pow_le_pow_right (by norm_num) (by omega)
        _ = 2 := by norm_num
    simp only [if_pos h31]
    generalize hP : 2 ^ (32 - pl) = P at *
    split_ifs <;> omega

theorem containsB_of_parse (a : Nat) (e : String) (n : Nat × Nat)
    (hn : parseNetwork e = some n) : containsB a e = inNetB a n := by
  simp [containsB, hn]

theorem scanIpCheck_false_iff (a : Nat) (db : List String)
    (hdb : ∀ e ∈ db, (parseNetwork e).isSome) :
    scanIpCheck a db = false ↔ ∃ e ∈ db, containsB a e = true := by
  induction db with
  | nil => simp [scanIpCheck]
  | cons item rest ih =>
    obtain ⟨n, hn⟩ := Option.isSome_iff_exists.mp (hdb item (by simp))
    have hrest : ∀ e ∈ rest, (parseNetwork e).isSome := fun e he => hdb e (by simp [he])
    simp only [scanIpCheck, hn]
    by_cases hin : inNetB a n = true
    · simp only [hin, if_true]
      constructor
      · intro _
        exact ⟨item, by simp, by simp [containsB, hn, hin]⟩
      · intro _
        trivial
    · have hin2 : inNetB a n = false := by simpa using hin
      have hh : hostsHitB a n = false := by
        rcases Bool.eq_false_or_eq_true (hostsHitB a n) with h | h
        · exact absurd (hostsHit_imp_inNet a n h) hin
        · exact h
      simp only [hin2, hh, Bool.false_eq_true, if_false, ih hrest]
      constructor
      · rintro ⟨e, he, hc⟩
        exact ⟨e, by simp [he], hc⟩
      · rintro ⟨e, he, hc⟩
        rcases List.mem_cons.mp he with he2 | he2
        · subst he2
          rw [containsB_of_parse a e n hn] at hc
          exact absurd hc hin
        · exact ⟨e, he2, hc⟩

theorem scanIpCheck_true_of_none (a : Nat) (db : List String)
    (hdb : ∀ e ∈ db, (parseNetwork e).isSome)
    (h : ∀ e ∈ db, containsB a e = false) : scanIpCheck a db = true := by
  rcases Bool.eq_false_or_eq_true (scanIpCheck a db) with ht | hf
  · exact ht
  · obtain ⟨e, he, hc⟩ := (scanIpCheck_false_iff a db hdb).mp hf
    rw [h e he] at hc
    exact absurd hc (by simp)

theorem removeScan_eq_find (a : Nat) (db : List String)
    (hdb : ∀ e ∈ db, (parseNetwork e).isSome) :
    removeScan a db = Except.ok (db.find? (containsB a)) := by
  induction db with
  | nil => simp [removeScan]
  | cons item rest ih =>
    obtain ⟨n, hn⟩ := Option.isSome_iff_exists.mp (hdb item (by simp))
    have hrest : ∀ e ∈ rest, (parseNetwork e).isSome := fun e he => hdb e (by simp [he])
    simp only [removeScan, hn]
    by_cases hin : inNetB a n = true
    · rw [if_pos hin, List.find?_cons_of_pos _ (by simp [containsB, hn, hin])]
    · have hin2 : inNetB a n = false := by simpa using hin
      rw [if_neg (by simp [hin2]), List.find?_cons_of_neg _ (by simp [containsB, hn, hin2]),
        ih hrest]

theorem find?_append_of_none {α : Type} {p : α → Bool} (l1 l2 : List α)
    (h : ∀ e ∈ l1, p e = false) : (l1 ++ l2).find? p = l2.find? p := by
  induction l1 with
  | nil => simp
  | cons x xs ih =>
    rw [List.cons_append, List.find?_cons_of_neg _ (by simp [h x (by simp)])]
    exact ih (fun e he => h e (by simp [he]))

theorem splitOnCharAux_fst (c : Char) (cs : List Char) :
    (splitOnCharAux c cs).1 = cs.takeWhile (· ≠ c) := by
  induction cs with
  | nil => rfl
  | cons x xs ih =>
    simp only [splitOnCharAux]
    by_cases hx : x = c
    · subst hx
      simp [List.takeWhile_cons]
    · simp [hx, List.takeWhile_cons, ih]

theorem splitOnCharAux_snd_ne_nil (c : Char) (cs : List Char) (h : c ∈ cs) :
    (splitOnCharAux c cs).2 ≠ [] := by
  induction cs with
  | nil => simp at h
  | cons x xs ih =>
    simp only [splitOnCharAux]
    by_cases hx : x = c
    · simp [hx]
    · have hmem : c ∈ xs := by
        rcases List.mem_cons.mp h with h2 | h2
        · exact absurd h2.symm hx
        · exact h2
      simp [hx, ih hmem]

theorem pyFindStrAux_single_pos (c : Char) (cs : List Char) (i : Int) (h : c ∈ cs) :
    pyFindStrAux [c] cs i = i + ((cs.takeWhile (· ≠ c)).length : Int) := by
  induction cs generalizing i with
  | nil => simp at h
  | cons x xs ih =>
    simp only [pyFindStrAux]
    rcases eq_or_ne c x with hx | hx
    · subst hx
      rw [if_pos (by simp [List.isPrefixOf])]
      simp [List.takeWhile_cons]
    · have hpre : ([c].isPrefixOf (x :: xs)) = false := by
        simp [List.isPrefixOf, hx]
      rw [if_neg (by simp [hpre])]
      have hmem : c ∈ xs := by
        rcases List.mem_cons.mp h with h2 | h2
        · exact absurd h2 hx
        · exact h2
      rw [ih _ hmem]
      have hxc : x ≠ c := fun hxe => hx hxe.symm
      simp [List.takeWhile_cons, hxc]
      omega

theorem pyFindStrAux_single_neg (c : Char) (cs : List Char) (i : Int) (h : c ∉ cs) :
    pyFindStrAux [c] cs i = -1 := by
  induction cs generalizing i with
  | nil => simp [pyFindStrAux]
  | cons x xs ih =>
    have hx : c ≠ x := fun he => h (by simp [he])
    have hmem : c ∉ xs := fun he => h (by simp [he])
    simp only [pyFindStrAux]
    rw [if_neg (by simp [List.isPrefixOf, hx])]
    exact ih _ hmem

theorem take_takeWhile_length (p : Char → Bool) (cs : List Char) :
    cs.take (cs.takeWhile p).length = cs.takeWhile p := by
  induction cs with
  | nil => rfl
  | cons x xs ih =>
    by_cases hx : p x
    · simp [List.takeWhile_cons, hx, ih]
    · simp [List.takeWhile_cons, hx]

theorem formattedPart_of_mem (s : String) (hs : '/' ∈ s.data) :
    formattedPart s = String.mk (s.data.takeWhile (· ≠ '/')) := by
  have hdata : ("/" : String).data = ['/'] := rfl
  have hlen : ((s.data.takeWhile (· ≠ '/')).length : Int) ≤ (s.data.length : Int) := by
    exact_mod_cast List.Sublist.length_le (List.takeWhile_sublist _)
  unfold formattedPart pySliceTo pyFindStr
  rw [hdata, pyFindStrAux_single_pos '/' s.data 0 hs]
  simp only [zero_add]
  rw [if_neg (by omega), Int.toNat_ofNat]
  rw [take_takeWhile_length]

theorem formattedPart_no_slash (s : String) (h : '/' ∉ s.data) :
    formattedPart s = String.mk s.data.dropLast := by
  have hdata : ("/" : String).data = ['/'] := rfl
  unfold formattedPart pySliceTo pyFindStr
  rw [hdata, pyFindStrAux_single_neg '/' s.data 0 h]
  have hdrop : s.data.dropLast = s.data.take (s.data.length - 1) := by
    rw [List.dropLast_eq_take]
  rw [hdrop]
  cases hn : s.data.length with
  | zero => simp
  | succ k => simp

theorem parseNetwork_first_octets (s : String) (n : Nat × Nat) (hs : '/' ∈ s.data)
    (hn : parseNetwork s = some n) :
    parseIPv4L (s.data.takeWhile (· ≠ '/')) = some n.1 := by
  unfold parseNetwork at hn
  cases h2 : (splitOnCharAux '/' s.data).2 with
  | nil => exact absurd h2 (splitOnCharAux_snd_ne_nil '/' s.data hs)
  | cons p ps =>
    have hsp : splitOnChar '/' s.data = (splitOnCharAux '/' s.data).1 :: p :: ps := by
      rw [splitOnChar, h2]
    rw [hsp] at hn
    cases ps with
    | cons q qs => simp at hn
    | nil =>
      rw [← splitOnCharAux_fst '/' s.data]
      cases hA : parseIPv4L (splitOnCharAux '/' s.data).1 with
      | none => simp [hA] at hn
      | some addr =>
        cases hP : parsePlenL p with
        | none => simp [hA, hP] at hn
        | some pl =>
          simp only [hA, hP] at hn
          by_cases hm : addr % 2 ^ (32 - pl) = 0
          · rw [if_pos hm] at hn
            injection hn with h3
            rw [← h3]
          · rw [if_neg hm] at hn
            cases hn

theorem check_false_of_entry (db : List String) (candidate : String) (a : Nat)
    (hp : parseIPv4 (formattedPart candidate) = some a)
    (e : String) (he : e ∈ db)
    (hdb : ∀ x ∈ db, (parseNetwork x).isSome)
    (hc : containsB a e = true) : check_ip_format db candidate = false := by
  simp only [check_ip_format, hp]
  exact (scanIpCheck_false_iff a db hdb).mpr ⟨e, he, hc⟩

/-- Claim C1: for every candidate string and ledger state (well-formed
reservation records), `check_ip_format` returns `false` — as a value, not an
exception — when the candidate is malformed, and otherwise returns `false`
exactly when some existing reservation conflicts in the sense of
`specConflict` (host address equals a reservation's network or broadcast
address, falls in its host range, or the candidate network is itself
reserved); in particular, after `reserve("10.0.0.0/24")` it is `false` for
`"10.0.0.0/24"`, `"10.0.0.5/32"` and `"10.0.0.255/32"`. -/
theorem check_ip_format_spec (db : List String) (candidate : String)
    (hdb : ∀ e ∈ db, (parseNetwork e).isSome) :
    (parseIPv4 (formattedPart candidate) = none → check_ip_format db candidate = false) ∧
    (∀ a, parseIPv4 (formattedPart candidate) = some a → '/' ∈ candidate.data →
      (check_ip_format db candidate = false ↔
        ∃ e ∈ db, ∃ n, parseNetwork e = some n ∧ specConflict candidate a n)) ∧
    (∀ db2, edit_db "10.0.0.0/24" true db = Except.ok db2 →
      check_ip_format db2 "10.0.0.0/24" = false ∧
      check_ip_format db2 "10.0.0.5/32" = false ∧
      check_ip_format db2 "10.0.0.255/32" = false) := by
  refine ⟨?_, ?_, ?_⟩
  · intro h
    simp [check_ip_format, h]
  · intro a ha hs
    simp only [check_ip_format, ha]
    rw [scanIpCheck_false_iff a db hdb]
    constructor
    · rintro ⟨e, he, hc⟩
      obtain ⟨n, hn⟩ := Option.isSome_iff_exists.mp (hdb e he)
      rw [containsB_of_parse a e n hn] at hc
      rcases (inNet_iff_conflict a n).mp hc with h1 | h1 | h1
      · exact ⟨e, he, n, hn, Or.inl h1⟩
      · exact ⟨e, he, n, hn, Or.inr (Or.inl h1)⟩
      · exact ⟨e, he, n, hn, Or.inr (Or.inr (Or.inl h1))⟩
    · rintro ⟨e, he, n, hn, hconf⟩
      refine ⟨e, he, ?_⟩
      rw [containsB_of_parse a e n hn]
      rcases hconf with h1 | h1 | h1 | h1
      · exact (inNet_iff_conflict a n).mpr (Or.inl h1)
      · exact (inNet_iff_conflict a n).mpr (Or.inr (Or.inl h1))
      · exact (inNet_iff_conflict a n).mpr (Or.inr (Or.inr h1))
      · have h2 := parseNetwork_first_octets candidate n hs h1
        rw [formattedPart_of_mem candidate hs] at ha
        have h3 : parseIPv4L (candidate.data.takeWhile (· ≠ '/')) = some a := ha
        rw [h2] at h3
        have h4 : a = n.1 := by
          injection h3 with h5
          exact h5.symm
        exact (inNet_iff_conflict a n).mpr (Or.inl h4)
  · intro db2 hdb2
    have hdb2e : db2 = db ++ ["10.0.0.0/24"] := by
      simp only [edit_db, if_pos] at hdb2
      injection hdb2 with h
      exact h.symm
    subst hdb2e
    have hall : ∀ e ∈ db ++ ["10.0.0.0/24"], (parseNetwork e).isSome := by
      intro e he
      rcases List.mem_append.mp he with h | h
      · exact hdb e h
      · simp only [List.mem_singleton] at h
        subst h
        decide
    refine ⟨?_, ?_, ?_⟩
    · exact check_false_of_entry _ _ (ipNat 10 0 0 0) (by decide) "10.0.0.0/24"
        (by simp) hall (by decide)
    · exact check_false_of_entry _ _ (ipNat 10 0 0 5) (by decide) "10.0.0.0/24"
        (by simp) hall (by decide)
    · exact check_false_of_entry _ _ (ipNat 10 0 0 255) (by decide) "10.0.0.0/24"
        (by simp) hall (by decide)

/-- Witness for claim C1 at the empty ledger: reserving `10.0.0.0/24` makes
`10.0.0.5/32` unavailable, and the malformed candidate `10.0.0.256/24`
yields `false`. -/
theorem check_ip_format_spec_witness :
    check_ip_format ["10.0.0.0/24"] "10.0.0.5/32" = false ∧
    check_ip_format [] "10.0.0.256/24" = false := by
  constructor
  · exact (((check_ip_format_spec [] "10.0.0.5/32" (by simp)).2.2
      ["10.0.0.0/24"]) rfl).2.1
  · exact (check_ip_format_spec [] "10.0.0.256/24" (by simp)).1 (by decide)

/-- Claim C10: a candidate without `/` has its last character silently
dropped before parsing (`find` returns `-1`, the slice ends one short), so
`"10.0.0.10"` is accepted and checked as the address `10.0.0.1`: it
conflicts with a `10.0.0.1/32` reservation and does not conflict with a
`10.0.0.10/32` reservation. -/
theorem slashless_slice_spec (s : String) (h : '/' ∉ s.data) :
    pyFindStr s "/" = -1 ∧
    formattedPart s = String.mk s.data.dropLast ∧
    parseIPv4 (formattedPart "10.0.0.10") = some (ipNat 10 0 0 1) ∧
    check_ip_format ["10.0.0.1/32"] "10.0.0.10" = false ∧
    check_ip_format ["10.0.0.10/32"] "10.0.0.10" = true := by
  refine ⟨?_, formattedPart_no_slash s h, by decide, by decide, by decide⟩
  have hdata : ("/" : String).data = ['/'] := rfl
  rw [pyFindStr, hdata, pyFindStrAux_single_neg '/' s.data 0 h]

/-- Witness for claim C10 at the slash-less candidate `"10.0.0.10"`. -/
theorem slashless_slice_spec_witness :
    formattedPart "10.0.0.10" = String.mk ("10.0.0.10".data.dropLast) ∧
    formattedPart "10.0.0.10" = "10.0.0.1" := by
  refine ⟨(slashless_slice_spec "10.0.0.10" (by decide)).2.1, by decide⟩

/-- Claim C2 counterexample: in the ledger `["10.0.0.1/32"]` the network
`10.0.0.0/24` is not yet reserved (`is_available` is true), yet after
reserving it and then releasing the address that was handed out for it
(its first usable host `10.0.0.1`, which `delete` extracts from the
interface configuration), the release removes the pre-existing
`10.0.0.1/32` record instead, and `is_available("10.0.0.0/24")` stays
false. -/
theorem reserve_release_roundtrip_cex :
    check_ip_format ["10.0.0.1/32"] "10.0.0.0/24" = true ∧
    edit_db "10.0.0.0/24" true ["10.0.0.1/32"] =
      Except.ok ["10.0.0.1/32", "10.0.0.0/24"] ∧
    get_next_ip_address "10.0.0.0/24" = some "10.0.0.1" ∧
    edit_db "10.0.0.1" false ["10.0.0.1/32", "10.0.0.0/24"] =
      Except.ok ["10.0.0.0/24"] ∧
    check_ip_format ["10.0.0.0/24"] "10.0.0.0/24" = false := by
  exact ⟨by decide, by rfl, by decide, by rfl, by decide⟩

/-- Claim C2 (amended): the round-trip holds for every ledger state whose
records are well-formed and in which no existing reservation contains the
network address `10.0.0.0` (the claim's precondition) nor the released
address `10.0.0.1` (the extra condition the counterexample forces): after
`reserve("10.0.0.0/24")` followed by `release("10.0.0.1")` the ledger is
restored and `is_available("10.0.0.0/24")` is true again. -/
theorem reserve_release_roundtrip_amended (db : List String)
    (hdb : ∀ e ∈ db, (parseNetwork e).isSome)
    (h0 : ∀ e ∈ db, containsB (ipNat 10 0 0 0) e = false)
    (h1 : ∀ e ∈ db, containsB (ipNat 10 0 0 1) e = false) :
    check_ip_format db "10.0.0.0/24" = true ∧
    get_next_ip_address "10.0.0.0/24" = some "10.0.0.1" ∧
    (∀ db2, edit_db "10.0.0.0/24" true db = Except.ok db2 →
      edit_db "10.0.0.1" false db2 = Except.ok db ∧
      check_ip_format db "10.0.0.0/24" = true) := by
  have hp : parseIPv4 (formattedPart "10.0.0.0/24") = some (ipNat 10 0 0 0) := by decide
  have havail : check_ip_format db "10.0.0.0/24" = true := by
    simp only [check_ip_format, hp]
    exact scanIpCheck_true_of_none _ db hdb h0
  refine ⟨havail, by decide, ?_⟩
  intro db2 hdb2
  have hdb2e : db2 = db ++ ["10.0.0.0/24"] := by
    simp only [edit_db, if_pos] at hdb2
    injection hdb2 with h
    exact h.symm
  subst hdb2e
  refine ⟨?_, havail⟩
  have hall : ∀ e ∈ db ++ ["10.0.0.0/24"], (parseNetwork e).isSome := by
    intro e he
    rcases List.mem_append.mp he with h | h
    · exact hdb e h
    · simp only [List.mem_singleton] at h
      subst h
      decide
  have hip1 : parseIPv4 "10.0.0.1" = some (ipNat 10 0 0 1) := by decide
  have hfind : (db ++ ["10.0.0.0/24"]).find? (containsB (ipNat 10 0 0 1)) =
      some "10.0.0.0/24" := by
    rw [find?_append_of_none db _ h1]
    exact List.find?_cons_of_pos _ (by decide)
  have hne : ∀ e ∈ db, e ≠ "10.0.0.0/24" := by
    intro e he heq
    have := h1 e he
    rw [heq] at this
    exact absurd this (by decide)
  simp only [edit_db, Bool.false_eq_true, if_false, hip1,
    removeScan_eq_find (ipNat 10 0 0 1) _ hall, hfind]
  congr 1
  rw [List.filter_append]
  have hleft : db.filter (· ≠ "10.0.0.0/24") = db :=
    List.filter_eq_self.mpr (fun e he => by simp [hne e he])
  rw [hleft]
  simp

/-- Witness for claim C2 (amended) at the one-record ledger
`["192.168.0.0/24"]`. -/
theorem reserve_release_roundtrip_amended_witness :
    edit_db "10.0.0.1" false ["192.168.0.0/24", "10.0.0.0/24"] =
      Except.ok ["192.168.0.0/24"] ∧
    check_ip_format ["192.168.0.0/24"] "10.0.0.0/24" = true := by
  have h := (reserve_release_roundtrip_amended ["192.168.0.0/24"]
    (by decide) (by decide) (by decide)).2.2 ["192.168.0.0/24", "10.0.0.0/24"] (by rfl)
  exact ⟨h.1, h.2⟩

/-- Claim C9 counterexample: `reserve` never checks uniqueness, so the
ledger can hold the same record twice; releasing `10.0.0.1` from
`["10.0.0.0/24", "10.0.0.0/24"]` removes both records
(`DB_FILE.remove(where('ip_address') == item['ip_address'])` deletes every
matching document), not at most one. -/
theorem edit_db_remove_cex :
    (["10.0.0.0/24", "10.0.0.0/24"] : List String).length = 2 ∧
    edit_db "10.0.0.1" false ["10.0.0.0/24", "10.0.0.0/24"] = Except.ok [] := by
  exact ⟨rfl, by rfl⟩

/-- Claim C9 (amended): for a well-formed ledger and a parseable address,
`release` is a silent no-op when no reservation's network contains the
address, and otherwise removes every record equal to the first reservation
whose network contains it — exactly one record when the ledger has no
duplicates. -/
theorem edit_db_remove_amended (ip : String) (a : Nat) (db : List String)
    (hip : parseIPv4 ip = some a)
    (hdb : ∀ e ∈ db, (parseNetwork e).isSome) :
    (db.find? (containsB a) = none → edit_db ip false db = Except.ok db) ∧
    (∀ i, db.find? (containsB a) = some i →
      edit_db ip false db = Except.ok (db.filter (· ≠ i)) ∧
      (db.Nodup → edit_db ip false db = Except.ok (db.erase i))) := by
  have hrs := removeScan_eq_find a db hdb
  constructor
  · intro hnone
    simp only [edit_db, Bool.false_eq_true, if_false, hip, hrs, hnone]
  · intro i hsome
    have hbase : edit_db ip false db = Except.ok (db.filter (· ≠ i)) := by
      simp only [edit_db, Bool.false_eq_true, if_false, hip, hrs, hsome]
    refine ⟨hbase, ?_⟩
    intro hnd
    rw [hbase, hnd.erase_eq_filter i]
    have hfun : (fun x => decide (x ≠ i)) = (fun x : String => x != i) := by
      funext x
      by_cases h : x = i
      · simp [h]
      · simp [h]
    rw [hfun]

/-- Witness for claim C9 (amended): a release that hits the first matching
record of a duplicate-free ledger removes exactly that record, and a release
that matches nothing leaves the ledger unchanged. -/
theorem edit_db_remove_amended_witness :
    edit_db "10.0.0.1" false ["10.0.0.0/24", "192.168.0.0/24"] =
      Except.ok ["192.168.0.0/24"] ∧
    edit_db "10.0.0.5" false ["192.168.0.0/24"] = Except.ok ["192.168.0.0/24"] := by
  constructor
  · have h := ((edit_db_remove_amended "10.0.0.1" (ipNat 10 0 0 1)
      ["10.0.0.0/24", "192.168.0.0/24"] (by decide) (by decide)).2
      "10.0.0.0/24" (by decide)).1
    exact h.trans (by rfl)
  · exact (edit_db_remove_amended "10.0.0.5" (ipNat 10 0 0 5)
      ["192.168.0.0/24"] (by decide) (by decide)).1 (by decide)

/-- Claim C3: on the device list `["Ethernet0/0", "Ethernet0/0.10",
"Loopback0", "Serial1/0"]`, family `Physical` selects exactly
`["Ethernet0/0", "Serial1/0"]` and family `Vlan` exactly
`["Ethernet0/0.10"]`; every other family selects the interfaces whose name
contains the family tag as a substring.  (In the code the physical-port
test is substring containment of `Ethernet`/`Serial`/`BRI`, which on this
list coincides with a prefix match.) -/
theorem classify_interfaces_spec (t : String) (names : List String)
    (h1 : t ≠ "Physical") (h2 : t ≠ "Vlan") :
    get_all_interfaces_of_type "Physical"
        ["Ethernet0/0", "Ethernet0/0.10", "Loopback0", "Serial1/0"] =
      ["Ethernet0/0", "Serial1/0"] ∧
    get_all_interfaces_of_type "Vlan"
        ["Ethernet0/0", "Ethernet0/0.10", "Loopback0", "Serial1/0"] =
      ["Ethernet0/0.10"] ∧
    get_all_interfaces_of_type t names = names.filter (fun n => strIn t n) := by
  refine ⟨by decide, by decide, ?_⟩
  simp [get_all_interfaces_of_type, h1, h2]

/-- Witness for claim C3 at the family tag `Loopback`. -/
theorem classify_interfaces_spec_witness :
    get_all_interfaces_of_type "Loopback"
        ["Ethernet0/0", "Ethernet0/0.10", "Loopback0", "Serial1/0"] =
      (["Ethernet0/0", "Ethernet0/0.10", "Loopback0", "Serial1/0"].filter
        (fun n => strIn "Loopback" n)) :=
  (classify_interfaces_spec "Loopback"
    ["Ethernet0/0", "Ethernet0/0.10", "Loopback0", "Serial1/0"]
    (by decide) (by decide)).2.2

/-- Claim C7 counterexample: for family `Physical` the device order
`["Serial1/0", "Ethernet0/0"]` is regrouped by prefix class to
`["Ethernet0/0", "Serial1/0"]`, which is not a subsequence of the device
output. -/
theorem classify_order_cex :
    get_all_interfaces_of_type "Physical" ["Serial1/0", "Ethernet0/0"] =
      ["Ethernet0/0", "Serial1/0"] ∧
    ¬ List.Sublist (["Ethernet0/0", "Serial1/0"] : List String)
        ["Serial1/0", "Ethernet0/0"] := by
  refine ⟨by decide, ?_⟩
  intro h
  exact absurd (h.eq_of_length (by decide)) (by decide)

/-- Claim C7 (amended): for every family other than `Physical` the result is
a subsequence of the device-reported order (a plain filter); for `Physical`
the result is regrouped — the `Ethernet` matches, then the `Serial` matches,
then the `BRI` matches — each group separately in device order. -/
theorem classify_order_amended (t : String) (names : List String) :
    (t ≠ "Physical" → List.Sublist (get_all_interfaces_of_type t names) names) ∧
    (get_all_interfaces_of_type "Physical" names =
      names.filter (fun n => strIn "Ethernet" n && !(strIn "." n)) ++
      names.filter (fun n => strIn "Serial" n && !(strIn "." n)) ++
      names.filter (fun n => strIn "BRI" n && !(strIn "." n))) ∧
    (∀ p : String,
      List.Sublist (names.filter (fun n => strIn p n && !(strIn "." n))) names) := by
  refine ⟨?_, ?_, fun p => List.filter_sublist names⟩
  · intro ht
    by_cases hv : t = "Vlan"
    · subst hv
      simp only [get_all_interfaces_of_type, if_neg ht, if_pos rfl]
      exact List.filter_sublist names
    · simp only [get_all_interfaces_of_type, if_neg ht, if_neg hv]
      exact List.filter_sublist names
  · simp [get_all_interfaces_of_type, List.foldl]

/-- Witness for claim C7 (amended) at the family tag `Loopback`. -/
theorem classify_order_amended_witness :
    List.Sublist (get_all_interfaces_of_type "Loopback" ["Loopback0", "Serial1/0"])
      ["Loopback0", "Serial1/0"] :=
  (classify_order_amended "Loopback" ["Loopback0", "Serial1/0"]).1 (by decide)

/-- Claim C8 counterexample: `check_name` removes interior spaces rather
than trimming, so the candidate `"Loopback 5"` collides with the existing
name `"Loopback5"` although its trimmed, canonically cased form
(`claimed_name_normalize`, modelled from the claim's words) matches no
existing name. -/
theorem check_name_cex :
    check_name ["Loopback5"] "Loopback 5" = false ∧
    claimed_name_normalize "Loopback 5" = "Loopback 5" ∧
    ¬ (("Loopback 5" : String) ∈ (["Loopback5"] : List String)) := by
  exact ⟨by decide, by decide, by decide⟩

/-- Claim C8 (amended): `check_name` normalises the candidate by deleting
every space character and Python-capitalising it (first character
uppercased, the rest lowercased), and returns `false` exactly when the
normalised candidate equals some existing interface name of the family,
`true` otherwise. -/
theorem check_name_amended (names : List String) (candidate : String) :
    (check_name names candidate = false ↔ normalize_name candidate ∈ names) ∧
    (check_name names candidate = true ↔ normalize_name candidate ∉ names) := by
  have hloop : ∀ (c : String) (l : List String), checkNameLoop c l = false ↔ c ∈ l := by
    intro c l
    induction l with
    | nil => simp [checkNameLoop]
    | cons x xs ih =>
      simp only [checkNameLoop]
      by_cases hx : x = c
      · simp [hx]
      · have hcx : ¬ c = x := fun h => hx h.symm
        simp [hx, ih, List.mem_cons, hcx]
  have h1 : check_name names candidate = false ↔ normalize_name candidate ∈ names :=
    hloop (normalize_name candidate) names
  refine ⟨h1, ?_⟩
  constructor
  · intro ht hmem
    rw [h1.mpr hmem] at ht
    cases ht
  · intro hmem
    cases hc : check_name names candidate
    · exact absurd (h1.mp hc) hmem
    · rfl

/-- Claim C4: `make_connection` is the two-branch state machine the claim
describes — a `Nexus` signature in the initial probe output leads to exactly
one additional reconnect and a session tagged `cisco_nxos`; an initial
timeout leads to exactly one fallback attempt with the legacy telnet dialect
and no further retries whatever that attempt's outcome; an initial
authentication failure is terminal and reported as a failed connection. -/
theorem make_connection_spec (env : Nat → ConnRes) :
    (∀ output probe2, env 0 = ConnRes.ok output → strIn "Nexus" output = true →
      env 1 = ConnRes.ok probe2 →
      make_connection env =
        (some true, { dialect := "cisco_nxos", calls := ["cisco_ios", "cisco_nxos"] })) ∧
    (env 0 = ConnRes.timeout →
      (make_connection env).2.calls = ["cisco_ios", "cisco_iso_telnet"] ∧
      (make_connection env).2.dialect = "cisco_iso_telnet" ∧
      (env 1 = ConnRes.authFail → (make_connection env).1 = some false)) ∧
    (env 0 = ConnRes.authFail →
      make_connection env =
        (some false, { dialect := "cisco_ios", calls := ["cisco_ios"] })) := by
  refine ⟨?_, ?_, ?_⟩
  · intro output probe2 h0 hnx h1
    simp [make_connection, connectCall, h0, hnx, h1]
  · intro h0
    cases h1 : env 1 <;>
      simp [make_connection, connectCall, telnetFallback, h0, h1]
  · intro h0
    simp [make_connection, connectCall, h0]

/-- Witness for claim C4: one environment per branch — a Nexus signature, an
all-timeouts transport, and an authentication failure. -/
theorem make_connection_spec_witness :
    make_connection
        (fun n => if n = 0 then ConnRes.ok "Cisco Nexus9000 found" else ConnRes.ok "ok") =
      (some true, { dialect := "cisco_nxos", calls := ["cisco_ios", "cisco_nxos"] }) ∧
    (make_connection (fun _ => ConnRes.timeout)).2.calls =
      ["cisco_ios", "cisco_iso_telnet"] ∧
    make_connection (fun _ => ConnRes.authFail) =
      (some false, { dialect := "cisco_ios", calls := ["cisco_ios"] }) := by
  refine ⟨(make_connection_spec _).1 "Cisco Nexus9000 found" "ok" rfl (by decide) rfl,
    ((make_connection_spec _).2.1 rfl).1,
    (make_connection_spec _).2.2 rfl⟩

theorem dhcpReleaseLoop_map (k : Nat) (l : List String) :
    ∃ rels : List String, dhcpReleaseLoop k l = rels.map LedgerEvent.release := by
  induction k generalizing l with
  | zero => exact ⟨[], rfl⟩
  | succ k ih =>
    obtain ⟨rels, hr⟩ := ih (l.drop 3)
    exact ⟨l.headD "" :: rels, by simp [dhcpReleaseLoop, hr]⟩

/-- Claim C5: deleting a DHCP pool whose detail text holds six IP literals
(two sub-ranges) issues exactly two ledger releases — the first IP of each
group of three — and only then sends the `no ip dhcp Pool <n>` command; in
general every release precedes the single negation command. -/
theorem delete_dhcp_spec (pool details : String) (a b c d e f : String)
    (h : get_all_ip_addresses details = [a, b, c, d, e, f]) :
    delete_dhcp pool details =
      [LedgerEvent.release a, LedgerEvent.release d,
       LedgerEvent.config ["no ip dhcp " ++ pool]] ∧
    (∀ p det : String, ∃ rels : List String,
      delete_dhcp p det =
        rels.map LedgerEvent.release ++ [LedgerEvent.config ["no ip dhcp " ++ p]]) := by
  constructor
  · simp [delete_dhcp, h, dhcpReleaseLoop]
  · intro p det
    obtain ⟨rels, hr⟩ := dhcpReleaseLoop_map
      ((get_all_ip_addresses det).length / 3) (get_all_ip_addresses det)
    exact ⟨rels, by simp [delete_dhcp, hr]⟩

/-- Witness for claim C5 at a two-sub-range pool detail text. -/
theorem delete_dhcp_spec_witness :
    delete_dhcp "Pool 7"
        "Pool 7\n10.0.0.0 10.0.0.1 - 10.0.0.254\n10.0.1.0 10.0.1.1 - 10.0.1.254" =
      [LedgerEvent.release "10.0.0.0", LedgerEvent.release "10.0.1.0",
       LedgerEvent.config ["no ip dhcp Pool 7"]] := by
  have h := (delete_dhcp_spec "Pool 7"
    "Pool 7\n10.0.0.0 10.0.0.1 - 10.0.0.254\n10.0.1.0 10.0.1.1 - 10.0.1.254"
    "10.0.0.0" "10.0.0.1" "10.0.0.254" "10.0.1.0" "10.0.1.1" "10.0.1.254"
    (by decide)).1
  exact h.trans (by rfl)

/-- Claim C6 (code bug evaluation): the basic-family deletion path behaves
as the claim states — first IP literal of the configuration text released,
skipped entirely for a dhcp-marked text, and `no ` prepended to the first
stanza line — and the Serial physical path sends the explicit
`interface <name>` / `no desc` / `no ip address` / `shutdown` batch and
releases the first IP after the `ip address` marker; but a non-Serial
physical deletion passes the interface NAME instead of its configuration
text to `Interface.delete`, which finds no IP literal in the name and
raises an uncaught `IndexError`: nothing is released and no negation
command is sent. -/
theorem delete_interface_eval :
    delete "interface Loopback5\n ip address 10.1.1.1 255.255.255.255\n description test\nend" =
      Except.ok [LedgerEvent.release "10.1.1.1",
        LedgerEvent.config ["no interface Loopback5"]] ∧
    delete "interface Ethernet0/1\n ip address dhcp\nend" =
      Except.ok [LedgerEvent.config ["no interface Ethernet0/1"]] ∧
    delete_physical "Serial1/0"
        "Building configuration...\n\ninterface Serial1/0\n description link\n ip address 10.2.2.1 255.255.255.0\nend" =
      Except.ok [LedgerEvent.config
          ["interface Serial1/0", "no desc", "no ip address", "shutdown"],
        LedgerEvent.release "10.2.2.1"] ∧
    delete_physical "Ethernet0/0"
        "Building configuration...\n\ninterface Ethernet0/0\n ip address 10.3.3.1 255.255.255.0\nend" =
      Except.error "IndexError" := by
  exact ⟨by rfl, by rfl, by rfl, by rfl⟩

end NetmikoProject
